import Mathlib

/-!
Shallow embedding of the greenLight_copy JSON API (Go) and proofs about it.

Conventions used throughout:
* Go `int`/`int32`/`int64` values are modelled as `Int` (overflow is irrelevant
  to every statement proved here; where a bound matters it is proved explicitly).
* Go maps used only for first-wins insertion and emptiness/lookup are modelled
  as insertion-ordered association lists.
* A Go `nil` slice is modelled as `[]`; fields whose JSON absence matters are
  modelled as `Option`.
* The database is modelled as a key-indexed store; the SQL statements of the
  model layer are translated to their row-level semantics.
* `crypto/sha256` is treated as an opaque parameter `sha256 : String → List Nat`;
  every theorem quantifies over it.
* Wall-clock time is an `Int` parameter `now`.
-/

set_option autoImplicit false

namespace GreenLight

/-! ## Validator (internal/validator/validator.go) -/

/-- `Validator.Errors` is Go's `map[string]string`, modelled as an
insertion-ordered association list (only first-wins insert, lookup and
emptiness are ever used on it, so the list order is exactly insert order). -/
structure Validator where
  Errors : List (String × String)
deriving DecidableEq

/-- First binding of `key`, i.e. Go map lookup. -/
def lookupKey (l : List (String × String)) (key : String) : Option String :=
  match l with
  | [] => none
  | (k, m) :: rest => if k = key then some m else lookupKey rest key

/-- `validator.New()`: a fresh validator with an empty error map. -/
def Validator.New : Validator := ⟨[]⟩

/-- `Valid()` — true iff the error map is empty. -/
def Validator.Valid (v : Validator) : Bool := v.Errors.isEmpty

/-- `AddError(key, message)` — insert only when the key is not present yet. -/
def Validator.AddError (v : Validator) (key message : String) : Validator :=
  match lookupKey v.Errors key with
  | some _ => v
  | none => ⟨v.Errors ++ [(key, message)]⟩

/-- `Check(ok, key, message)` — record a failure iff `ok` is false. -/
def Validator.Check (v : Validator) (ok : Bool) (key message : String) : Validator :=
  if ok then v else v.AddError key message

/-- One call made against a validator: either `Check` or a bare `AddError`. -/
inductive VOp where
  | check (ok : Bool) (key message : String)
  | addError (key message : String)
deriving DecidableEq

/-- Whether the call records a failure. -/
def VOp.fails : VOp → Bool
  | .check ok _ _ => !ok
  | .addError _ _ => true

def VOp.key : VOp → String
  | .check _ k _ => k
  | .addError k _ => k

def VOp.message : VOp → String
  | .check _ _ m => m
  | .addError _ m => m

/-- Apply one call to a validator. -/
def applyVOp (v : Validator) : VOp → Validator
  | .check ok k m => v.Check ok k m
  | .addError k m => v.AddError k m

/-- Run a sequence of calls left to right. -/
def runOps (v : Validator) : List VOp → Validator
  | [] => v
  | op :: rest => runOps (applyVOp v op) rest

/-- First failure recorded for `key` by a call sequence. -/
def firstFailureFor (key : String) : List VOp → Option String
  | [] => none
  | op :: rest =>
    if op.fails && op.key = key then some op.message else firstFailureFor key rest

/-- `validator.In(value, list...)`. -/
def In (value : String) : List String → Bool
  | [] => false
  | x :: rest => if value = x then true else In value rest

/-- `validator.Unique(values)`: Go builds a set from the values and compares
sizes; the number of distinct values equals the number of values. -/
def Unique (values : List String) : Bool :=
  values.eraseDups.length = values.length

/-! ## Filters and pagination metadata (internal/data/filters.go) -/

structure Filters where
  Page : Int
  PageSize : Int
  sort : String
  SortSafelist : List String
deriving DecidableEq

/-- `strings.HasPrefix(s, "-")`. -/
def hasHyphenPrefix (s : String) : Bool :=
  match s.toList with
  | '-' :: _ => true
  | _ => false

/-- `strings.TrimPrefix(s, "-")`: drop one leading hyphen when present. -/
def trimHyphen (s : String) : String :=
  if hasHyphenPrefix s then s.drop 1 else s

/-- The loop body of `Filters.sortColumn`: scan the safelist for an exact
match; `none` models the `panic("unsafe sort parameter: ...")` fallthrough. -/
def sortColumnLoop (sort : String) : List String → Option String
  | [] => none
  | safeValue :: rest =>
    if sort = safeValue then some (trimHyphen sort) else sortColumnLoop sort rest

def Filters.sortColumn (f : Filters) : Option String :=
  sortColumnLoop f.sort f.SortSafelist

/-- `Filters.sortDirection`. -/
def Filters.sortDirection (f : Filters) : String :=
  if hasHyphenPrefix f.sort then "DESC" else "ASC"

def Filters.limit (f : Filters) : Int := f.PageSize

def Filters.offset (f : Filters) : Int := (f.Page - 1) * f.PageSize

/-- The five `v.Check` calls of `data.ValidateFilters`, in source order. -/
def validateFiltersOps (f : Filters) : List VOp :=
  [ .check (decide (0 < f.Page)) "page" "must be greater than zero",
    .check (decide (f.Page ≤ 10000000)) "page" "must be a maximum of 10 million",
    .check (decide (0 < f.PageSize)) "page_size" "must be greater than zero",
    .check (decide (f.PageSize ≤ 100)) "page_size" "must be a maximum of 100",
    .check (In f.sort f.SortSafelist) "sort" "invalid sort value" ]

def ValidateFilters (v : Validator) (f : Filters) : Validator :=
  runOps v (validateFiltersOps f)

structure Metadata where
  CurrentPage : Int
  PageSize : Int
  FirstPage : Int
  LastPage : Int
  TotalRecords : Int
deriving DecidableEq

/-- `int(math.Ceil(float64(t) / float64(p)))` for positive `p`: the float64
arithmetic is exact for every magnitude reachable here (below `2^53`), so it
computes the mathematical ceiling, written at the `Int` level as `-((-t) / p)`
(Euclidean division). -/
def ceilDivInt (t p : Int) : Int := -((-t) / p)

/-- `data.calculateMetadata`. -/
def calculateMetadata (totalRecords page pageSize : Int) : Metadata :=
  if totalRecords = 0 then
    ⟨0, 0, 0, 0, 0⟩
  else
    { CurrentPage := page
      PageSize := pageSize
      FirstPage := 1
      LastPage := ceilDivInt totalRecords pageSize
      TotalRecords := totalRecords }

/-! ## Movies (internal/data/movies.go) -/

structure MovieRow where
  id : Int
  createdAt : Int
  title : String
  year : Int
  runtime : Int
  genres : List String
  version : Int
deriving DecidableEq

/-- The movies table, keyed by primary key `id`. -/
def MovieDB : Type := Int → Option MovieRow

inductive UpdateResult where
  | ok (newVersion : Int)
  | editConflict
deriving DecidableEq

/-- `MovieModel.Update`: the row-level semantics of
`UPDATE movies SET ..., version = version + 1 WHERE id = $5 AND version = $6
RETURNING version`; zero matched rows is `sql.ErrNoRows`, mapped to
`ErrEditConflict`; on success `Scan` yields the new version. -/
def movieUpdate (db : MovieDB) (movie : MovieRow) : UpdateResult × MovieDB :=
  match db movie.id with
  | some row =>
    if row.version = movie.version then
      let updated : MovieRow :=
        { row with
          title := movie.title
          year := movie.year
          runtime := movie.runtime
          genres := movie.genres
          version := row.version + 1 }
      (UpdateResult.ok (row.version + 1),
        fun i => if i = movie.id then some updated else db i)
    else (UpdateResult.editConflict, db)
  | none => (UpdateResult.editConflict, db)

/-- `MovieModel.Get`: `id < 1` is `ErrRecordNotFound` without a query; zero
rows is `ErrRecordNotFound`; both modelled as `none`. -/
def movieGet (db : MovieDB) (id : Int) : Option MovieRow :=
  if id < 1 then none else db id

/-- The eleven `v.Check` calls of `data.ValidateMovie`, in source order.
`nowYear` is `time.Now().Year()`; a Go `nil` genres slice is `[]`. -/
def validateMovieOps (nowYear : Int) (m : MovieRow) : List VOp :=
  [ .check (decide (m.title ≠ "")) "title" "must be provided",
    .check (decide (m.title.utf8ByteSize ≤ 500)) "title"
      "must not be more than 500 bytes long",
    .check (decide (m.year ≠ 0)) "year" "must be provided",
    .check (decide (1888 ≤ m.year)) "year" "must be greater than 1888",
    .check (decide (m.year ≤ nowYear)) "year" "must not be in the future",
    .check (decide (m.runtime ≠ 0)) "runtime" "must be provided",
    .check (decide (0 < m.runtime)) "runtime" "must be a positive integer",
    .check (decide (m.genres ≠ [])) "genres" "must be provided",
    .check (decide (1 ≤ m.genres.length)) "genres" "must contain at least 1 genre",
    .check (decide (m.genres.length ≤ 5)) "genres"
      "must not contain more than 5 genres",
    .check (Unique m.genres) "genres" "must not contain duplicate values" ]

def ValidateMovie (nowYear : Int) (m : MovieRow) : Validator :=
  runOps Validator.New (validateMovieOps nowYear m)

/-- The decoded PATCH body of `updateMovieHandler`: pointer fields, `none`
for a key absent from the JSON object (`nil` pointer / `nil` slice). -/
structure MovieInput where
  Title : Option String
  Year : Option Int
  Runtime : Option Int
  Genres : Option (List String)
deriving DecidableEq

/-- The four `if input.X != nil` copies of `updateMovieHandler`. -/
def applyMovieInput (movie : MovieRow) (input : MovieInput) : MovieRow :=
  let m1 := match input.Title with
    | some t => { movie with title := t }
    | none => movie
  let m2 := match input.Year with
    | some y => { m1 with year := y }
    | none => m1
  let m3 := match input.Runtime with
    | some rt => { m2 with runtime := rt }
    | none => m2
  match input.Genres with
  | some g => { m3 with genres := g }
  | none => m3

inductive UpdateHandlerResult where
  | notFound
  | failedValidation (errors : List (String × String))
  | conflict
  | okMovie (movie : MovieRow)
deriving DecidableEq

/-- `application.updateMovieHandler`, from the point where the movie id and
the JSON body have been decoded successfully: fetch, apply present fields,
validate, conditional update, map errors to responses. -/
def updateMovieHandler (db : MovieDB) (nowYear : Int) (id : Int)
    (input : MovieInput) : UpdateHandlerResult × MovieDB :=
  match movieGet db id with
  | none => (UpdateHandlerResult.notFound, db)
  | some movie =>
    let updated := applyMovieInput movie input
    let v := ValidateMovie nowYear updated
    if v.Valid then
      match movieUpdate db updated with
      | (UpdateResult.ok newVersion, db') =>
        (UpdateHandlerResult.okMovie { updated with version := newVersion }, db')
      | (UpdateResult.editConflict, db') => (UpdateHandlerResult.conflict, db')
    else (UpdateHandlerResult.failedValidation v.Errors, db)

/-! ## Users (internal/data/users.go) -/

structure UserRow where
  id : Int
  createdAt : Int
  name : String
  email : String
  passwordHash : List Nat
  activated : Bool
  version : Int
deriving DecidableEq

def UserDB : Type := Int → Option UserRow

inductive UserUpdateResult where
  | ok (newVersion : Int)
  | editConflict
  | duplicateEmail
deriving DecidableEq

/-- `UserModel.Update`: `UPDATE users SET ..., version = version + 1 WHERE id =
$5 AND version = $6 RETURNING version`. When a row matches, the backing store
may still reject the new email against the `users_email_key` unique constraint;
that verdict is the external collaborator's and is passed in as
`emailConflicts`. Zero matched rows is `sql.ErrNoRows` mapped to
`ErrEditConflict` (a unique-constraint check never fires then, since nothing
was written). -/
def userUpdate (db : UserDB) (user : UserRow) (emailConflicts : Bool) :
    UserUpdateResult × UserDB :=
  match db user.id with
  | some row =>
    if row.version = user.version then
      if emailConflicts then (UserUpdateResult.duplicateEmail, db)
      else
        let updated : UserRow :=
          { row with
            name := user.name
            email := user.email
            passwordHash := user.passwordHash
            activated := user.activated
            version := row.version + 1 }
        (UserUpdateResult.ok (row.version + 1),
          fun i => if i = user.id then some updated else db i)
    else (UserUpdateResult.editConflict, db)
  | none => (UserUpdateResult.editConflict, db)

/-- The exact `pq` error string `UserModel.Insert` compares against. -/
def pqDuplicateEmailError : String :=
  "pq: duplicate key value violates unique constraint \"users_email_key\""

/-- Outcome of the `INSERT INTO users ... RETURNING id, created_at, version`
statement at the backing store. -/
inductive InsertExecResult where
  | row (id : Int) (createdAt : Int) (version : Int)
  | failure (errMsg : String)
deriving DecidableEq

inductive UserInsertError where
  | duplicateEmail
  | other (errMsg : String)
deriving DecidableEq

/-- `UserModel.Insert`: classify the store's error by its message string;
the `users_email_key` violation becomes the distinct `ErrDuplicateEmail`. -/
def userInsert (execResult : InsertExecResult) (user : UserRow) :
    Except UserInsertError UserRow :=
  match execResult with
  | InsertExecResult.row id createdAt version =>
    Except.ok { user with id := id, createdAt := createdAt, version := version }
  | InsertExecResult.failure errMsg =>
    if errMsg = pqDuplicateEmailError then Except.error UserInsertError.duplicateEmail
    else Except.error (UserInsertError.other errMsg)

inductive RegisterOutcome where
  | accepted (user : UserRow)
  | failedValidation (errors : List (String × String))
  | serverError
deriving DecidableEq

/-- The error-translation step of `application.registerUserHandler` around
`app.models.Users.Insert`: `ErrDuplicateEmail` becomes a field-level 422 via
`v.AddError("email", ...)` + `failedValidationResponse`; anything else becomes
a 500 `serverErrorResponse`. `v` is the validator that already accepted the
input. -/
def registerInsertOutcome (v : Validator) (res : Except UserInsertError UserRow) :
    RegisterOutcome :=
  match res with
  | Except.ok user => RegisterOutcome.accepted user
  | Except.error UserInsertError.duplicateEmail =>
    RegisterOutcome.failedValidation
      ((v.AddError "email" "a user with this email address already exists").Errors)
  | Except.error (UserInsertError.other _) => RegisterOutcome.serverError

/-- HTTP status of a `RegisterOutcome` (202 `Accepted`, 422
`failedValidationResponse`, 500 `serverErrorResponse`). -/
def RegisterOutcome.status : RegisterOutcome → Int
  | RegisterOutcome.accepted _ => 202
  | RegisterOutcome.failedValidation _ => 422
  | RegisterOutcome.serverError => 500

/-! ## Tokens (internal/data/tokens.go) -/

def ScopeActivation : String := "activation"

def ScopeAuthentication : String := "authentication"

/-- The eight bits of a byte, most significant first. -/
def byteToBits (b : Nat) : List Bool :=
  [b.testBit 7, b.testBit 6, b.testBit 5, b.testBit 4,
   b.testBit 3, b.testBit 2, b.testBit 1, b.testBit 0]

def bytesToBits (bs : List Nat) : List Bool :=
  (bs.map byteToBits).flatten

/-- Split a bit stream into 5-bit groups; the last group may be short. -/
def chunk5 : List Bool → List (List Bool)
  | [] => []
  | b1 :: b2 :: b3 :: b4 :: b5 :: rest => [b1, b2, b3, b4, b5] :: chunk5 rest
  | l => [l]

/-- Value of one group, zero-padded on the right to 5 bits (as
`encoding/base32` pads the final partial group). -/
def chunkVal (c : List Bool) : Nat :=
  (c ++ List.replicate (5 - c.length) false).foldl
    (fun acc b => 2 * acc + (if b then 1 else 0)) 0

def base32StdAlphabet : String := "ABCDEFGHIJKLMNOPQRSTUVWXYZ234567"

/-- `base32.StdEncoding.WithPadding(base32.NoPadding).EncodeToString`. -/
def base32EncodeNoPad (bs : List Nat) : String :=
  String.mk ((chunk5 (bytesToBits bs)).map
    (fun c => base32StdAlphabet.toList.getD (chunkVal c) 'A'))

structure Token where
  Plaintext : String
  Hash : List Nat
  UserID : Int
  Expiry : Int
  Scope : String
deriving DecidableEq

/-- `data.generateToken`. `sha256` abstracts `crypto/sha256.Sum256`; `now` is
`time.Now()`; `randRead` is the outcome of `crypto/rand.Read` on the 16-byte
slice: on error the error is returned and no token is built. -/
def generateToken (sha256 : String → List Nat) (now : Int) (userID : Int)
    (ttl : Int) (scope : String) (randRead : Except String (List Nat)) :
    Except String Token :=
  match randRead with
  | Except.error e => Except.error e
  | Except.ok randomBytes =>
    let plaintext := base32EncodeNoPad randomBytes
    Except.ok
      { Plaintext := plaintext
        Hash := sha256 plaintext
        UserID := userID
        Expiry := now + ttl
        Scope := scope }

/-- The two `v.Check` calls of `data.ValidateTokenPlaintext` (Go `len` is the
byte length). -/
def validateTokenPlaintextOps (tokenPlaintext : String) : List VOp :=
  [ .check (decide (tokenPlaintext ≠ "")) "token" "must be provided",
    .check (decide (tokenPlaintext.utf8ByteSize = 26)) "token"
      "must be 26 bytes long" ]

/-! ## Authentication middleware (cmd/api/middleware.go, users model) -/

/-- A persisted token row (`tokens` table). -/
structure TokenRow where
  hash : List Nat
  userID : Int
  expiry : Int
  scope : String
deriving DecidableEq

/-- `UserModel.GetForToken`: hash the claimed plaintext, inner-join `tokens`
with `users` on `user_id`, filtering on hash, scope and `expiry > now`; zero
rows (`ErrRecordNotFound`) is `none`. An expired token and a never-issued
token take the identical path to `none`. -/
def getForToken (sha256 : String → List Nat) (users : List UserRow)
    (tokens : List TokenRow) (now : Int) (tokenScope tokenPlaintext : String) :
    Option UserRow :=
  let tokenHash := sha256 tokenPlaintext
  (tokens.find? (fun t =>
      decide (t.hash = tokenHash) && decide (t.scope = tokenScope) &&
        decide (now < t.expiry))).bind
    (fun t => users.find? (fun u => decide (u.id = t.userID)))

inductive AuthOutcome where
  | proceedAs (user : UserRow)
  | proceedAnonymous
  | invalidCredentials
  | invalidAuthenticationToken
deriving DecidableEq

/-- HTTP status written by the outcome, `none` when the request proceeds
downstream. Both failure responses are 401s
(`invalidCredentialsResponse` / `invalidAuthenticationTokenResponse`). -/
def AuthOutcome.status : AuthOutcome → Option Int
  | AuthOutcome.proceedAs _ => none
  | AuthOutcome.proceedAnonymous => none
  | AuthOutcome.invalidCredentials => some 401
  | AuthOutcome.invalidAuthenticationToken => some 401

structure AuthResponse where
  varyAuthorizationAdded : Bool
  outcome : AuthOutcome
deriving DecidableEq

/-- The field splitting of Go `strings.Split(s, " ")`: substrings between
consecutive single spaces (an empty input yields one empty field). -/
def splitFields : List Char → List (List Char)
  | [] => [[]]
  | c :: rest =>
    if c = ' ' then [] :: splitFields rest
    else
      match splitFields rest with
      | [] => [[c]]
      | f :: fs => (c :: f) :: fs

/-- `strings.Split(s, " ")`. -/
def goSplitSpace (s : String) : List String :=
  (splitFields s.toList).map String.mk

/-- `application.authenticate`. `authorizationHeader` is
`r.Header.Get("Authorization")` (`""` when absent). The `proceedAs` /
`proceedAnonymous` outcomes attach the given user to the request context and
invoke the downstream handler. -/
def authenticate (sha256 : String → List Nat) (users : List UserRow)
    (tokens : List TokenRow) (now : Int) (authorizationHeader : String) :
    AuthResponse :=
  { varyAuthorizationAdded := true
    outcome :=
      if authorizationHeader = "" then AuthOutcome.proceedAnonymous
      else
        match goSplitSpace authorizationHeader with
        | [part0, token] =>
          if part0 = "Bearer" then
            if (runOps Validator.New (validateTokenPlaintextOps token)).Valid then
              match getForToken sha256 users tokens now ScopeAuthentication token with
              | some user => AuthOutcome.proceedAs user
              | none => AuthOutcome.invalidCredentials
            else AuthOutcome.invalidAuthenticationToken
          else AuthOutcome.invalidCredentials
        | _ => AuthOutcome.invalidCredentials }

/-! ## CORS middleware (cmd/api/middleware.go) -/

structure CorsConfig where
  trustedOrigins : List String
deriving DecidableEq

structure CorsRequest where
  method : String
  origin : String
  accessControlRequestMethod : String
deriving DecidableEq

inductive CorsOutcome where
  | preflightOK
  | passDownstream
deriving DecidableEq

structure CorsResponse where
  allowOrigin : Option String
  allowMethodsSet : Bool
  allowHeadersSet : Bool
  outcome : CorsOutcome
deriving DecidableEq

/-- The `for i := range app.config.cors.trustedOrigins` loop of `enableCORS`:
on an exact origin match, set `Access-Control-Allow-Origin`; if additionally
the request is a preflight, set the allow-methods/headers, write 200 and
return without reaching the downstream handler. -/
def corsLoop (origin : String) (preflight : Bool) (resp : CorsResponse) :
    List String → CorsResponse
  | [] => resp
  | trusted :: rest =>
    if origin = trusted then
      let resp' := { resp with allowOrigin := some origin }
      if preflight then
        { resp' with
          allowMethodsSet := true
          allowHeadersSet := true
          outcome := CorsOutcome.preflightOK }
      else corsLoop origin preflight resp' rest
    else corsLoop origin preflight resp rest

/-- `application.enableCORS`. (The two `Vary` headers are added
unconditionally before the guard and are not part of the claims.) -/
def enableCORS (cfg : CorsConfig) (r : CorsRequest) : CorsResponse :=
  let base : CorsResponse :=
    { allowOrigin := none
      allowMethodsSet := false
      allowHeadersSet := false
      outcome := CorsOutcome.passDownstream }
  let preflight := decide (r.method = "OPTIONS") &&
    decide (r.accessControlRequestMethod ≠ "")
  if r.origin ≠ "" ∧ cfg.trustedOrigins.length ≠ 0 then
    corsLoop r.origin preflight base cfg.trustedOrigins
  else base

/-! ## Theorems -/

/-! ### Validator lemmas -/

theorem lookupKey_append_self (l : List (String × String)) (k m : String)
    (h : lookupKey l k = none) : lookupKey (l ++ [(k, m)]) k = some m := by
  induction l with
  | nil => simp [lookupKey]
  | cons p rest ih =>
    obtain ⟨k', m'⟩ := p
    by_cases hk : k' = k
    · simp [lookupKey, hk] at h
    · simp only [lookupKey, List.cons_append, hk, if_false] at h ⊢
      exact ih h

theorem lookupKey_append_other (l : List (String × String)) (k k' m : String)
    (h : k ≠ k') : lookupKey (l ++ [(k, m)]) k' = lookupKey l k' := by
  induction l with
  | nil => simp [lookupKey, h]
  | cons p rest ih =>
    obtain ⟨k'', m''⟩ := p
    by_cases hk : k'' = k'
    · simp [lookupKey, hk]
    · simp only [lookupKey, List.cons_append, hk, if_false]
      exact ih

theorem applyVOp_valid (v : Validator) (op : VOp) :
    (applyVOp v op).Valid = (v.Valid && !op.fails) := by
  cases op with
  | check ok k m =>
    cases ok with
    | true => simp [applyVOp, Validator.Check, VOp.fails]
    | false =>
      simp only [applyVOp, Validator.Check, Bool.false_eq_true, if_false, VOp.fails,
        Bool.not_false, Bool.and_true]
      cases h : lookupKey v.Errors k with
      | some m' =>
        simp only [Validator.AddError, h]
        cases v with
        | mk errs =>
          cases errs with
          | nil => simp [lookupKey] at h
          | cons p rest => simp [Validator.Valid]
      | none => simp [Validator.AddError, h, Validator.Valid]
  | addError k m =>
    simp only [applyVOp, VOp.fails, Bool.not_true, Bool.and_false]
    cases h : lookupKey v.Errors k with
    | some m' =>
      simp only [Validator.AddError, h]
      cases v with
      | mk errs =>
        cases errs with
        | nil => simp [lookupKey] at h
        | cons p rest => simp [Validator.Valid]
    | none => simp [Validator.AddError, h, Validator.Valid]

theorem runOps_valid (ops : List VOp) : ∀ v : Validator,
    (runOps v ops).Valid = (v.Valid && ops.all (fun op => !op.fails)) := by
  induction ops with
  | nil => intro v; simp [runOps]
  | cons op rest ih =>
    intro v
    simp only [runOps, ih, applyVOp_valid, List.all_cons, Bool.and_assoc]

theorem applyVOp_lookup (v : Validator) (op : VOp) (key : String) :
    lookupKey (applyVOp v op).Errors key =
      match lookupKey v.Errors key with
      | some m => some m
      | none => if op.fails && op.key = key then some op.message else none := by
  cases op with
  | check ok k m =>
    cases ok with
    | true =>
      simp only [applyVOp, Validator.Check, if_true, VOp.fails, Bool.not_true,
        Bool.false_and, if_false]
      cases lookupKey v.Errors key <;> rfl
    | false =>
      simp only [applyVOp, Validator.Check, Bool.false_eq_true, if_false, VOp.fails,
        Bool.not_false, Bool.true_and, VOp.key, VOp.message, Validator.AddError]
      cases h : lookupKey v.Errors k with
      | some m' =>
        cases hk : lookupKey v.Errors key with
        | some mk' => simp
        | none =>
          by_cases hkey : k = key
          · subst hkey; rw [h] at hk; cases hk
          · simp [decide_eq_true_eq, hkey]
      | none =>
        cases hk : lookupKey v.Errors key with
        | some mk' =>
          have hkey : ¬(k = key) := by
            intro he; subst he; rw [h] at hk; cases hk
          simp only []
          rw [lookupKey_append_other _ _ _ _ hkey, hk]
        | none =>
          by_cases hkey : k = key
          · subst hkey
            rw [lookupKey_append_self _ _ _ hk]
            simp
          · simp only []
            rw [lookupKey_append_other _ _ _ _ hkey, hk]
            simp [hkey]
  | addError k m =>
    simp only [applyVOp, VOp.fails, Bool.true_and, VOp.key, VOp.message, Validator.AddError]
    cases h : lookupKey v.Errors k with
    | some m' =>
      cases hk : lookupKey v.Errors key with
      | some mk' => simp
      | none =>
        by_cases hkey : k = key
        · subst hkey; rw [h] at hk; cases hk
        · simp [hkey]
    | none =>
      cases hk : lookupKey v.Errors key with
      | some mk' =>
        have hkey : ¬(k = key) := by
          intro he; subst he; rw [h] at hk; cases hk
        simp only []
        rw [lookupKey_append_other _ _ _ _ hkey, hk]
      | none =>
        by_cases hkey : k = key
        · subst hkey
          simp only [decide_eq_true_eq]
          rw [lookupKey_append_self _ _ _ hk]
          simp
        · simp only []
          rw [lookupKey_append_other _ _ _ _ hkey, hk]
          simp [hkey]

theorem runOps_lookup (ops : List VOp) : ∀ (v : Validator) (key : String),
    lookupKey (runOps v ops).Errors key =
      match lookupKey v.Errors key with
      | some m => some m
      | none => firstFailureFor key ops := by
  induction ops with
  | nil =>
    intro v key
    simp only [runOps, firstFailureFor]
    cases lookupKey v.Errors key <;> rfl
  | cons op rest ih =>
    intro v key
    simp only [runOps, ih, applyVOp_lookup, firstFailureFor]
    cases lookupKey v.Errors key with
    | some m => simp
    | none =>
      by_cases hf : op.fails && op.key = key
      · simp [hf]
      · simp [hf]



theorem sortColumnLoop_mem (s : String) (l : List String) :
    s ∈ l → sortColumnLoop s l = some (trimHyphen s) := by
  induction l with
  | nil => intro h; cases h
  | cons x rest ih =>
    intro h
    by_cases hx : s = x
    · simp [sortColumnLoop, hx]
    · rcases List.mem_cons.mp h with h | h
      · exact absurd h hx
      · simp only [sortColumnLoop, hx, if_false]
        exact ih h

theorem sortColumnLoop_not_mem (s : String) (l : List String) :
    s ∉ l → sortColumnLoop s l = none := by
  induction l with
  | nil => intro _; rfl
  | cons x rest ih =>
    intro h
    have hx : ¬(s = x) := fun he => h (he ▸ List.mem_cons_self x rest)
    simp only [sortColumnLoop, hx, if_false]
    exact ih (fun hm => h (List.mem_cons_of_mem x hm))

/-- C4: a `Sort` value on the safelist yields the column name with a single
leading `-` stripped, and the direction is `DESC` exactly when the value
starts with `-`; a value off the safelist makes `sortColumn` panic (modelled
as `none`) instead of producing a column name. -/
theorem sortColumn_safelist_only (f : Filters) :
    (f.sort ∈ f.SortSafelist → f.sortColumn = some (trimHyphen f.sort)) ∧
    (f.sort ∉ f.SortSafelist → f.sortColumn = none) ∧
    f.sortDirection = (if hasHyphenPrefix f.sort then "DESC" else "ASC") := by
  refine ⟨fun h => ?_, fun h => ?_, rfl⟩
  · exact sortColumnLoop_mem _ _ h
  · exact sortColumnLoop_not_mem _ _ h

theorem sortColumn_safelist_only_witness :
    let f : Filters := ⟨1, 20, "-year", ["id", "title", "-year"]⟩
    let g : Filters := ⟨1, 20, "id; DROP TABLE movies", ["id", "title", "-year"]⟩
    f.sortColumn = some "year" ∧ f.sortDirection = "DESC" ∧
    g.sortColumn = none := by
  refine ⟨?_, ?_, ?_⟩
  · exact ((sortColumn_safelist_only ⟨1, 20, "-year", ["id", "title", "-year"]⟩).1
      (by decide)).trans (by decide)
  · exact ((sortColumn_safelist_only ⟨1, 20, "-year", ["id", "title", "-year"]⟩).2.2).trans
      (by decide)
  · exact (sortColumn_safelist_only
      ⟨1, 20, "id; DROP TABLE movies", ["id", "title", "-year"]⟩).2.1 (by decide)

/-- C5: over any call sequence against a fresh validator, `Valid()` is true
iff no call recorded a failure; `Check` records a failure iff its condition is
false; and the message stored for a key is the first failure recorded for it,
later ones being dropped. -/
theorem validator_first_error_wins (ops : List VOp) (key : String) :
    ((runOps Validator.New ops).Valid = true ↔ ∀ op ∈ ops, op.fails = false) ∧
    lookupKey (runOps Validator.New ops).Errors key = firstFailureFor key ops ∧
    (∀ (v : Validator) (k m : String), v.Check true k m = v) ∧
    (∀ (v : Validator) (k m : String),
      lookupKey (v.Check false k m).Errors k ≠ none) := by
  refine ⟨?_, ?_, ?_, ?_⟩
  · rw [runOps_valid]
    simp [Validator.New, Validator.Valid, List.all_eq_true]
  · rw [runOps_lookup]
    simp [Validator.New, lookupKey]
  · intro v k m
    simp [Validator.Check]
  · intro v k m
    simp only [Validator.Check, Bool.false_eq_true, if_false]
    unfold Validator.AddError
    cases h : lookupKey v.Errors k with
    | some m' => simp [h]
    | none => simp [lookupKey_append_self _ _ _ h]

theorem validator_first_error_wins_witness :
    let ops : List VOp :=
      [VOp.check true "page" "ok", VOp.check false "page" "first message",
       VOp.addError "page" "second message", VOp.check false "sort" "bad sort"]
    (runOps Validator.New ops).Valid = false ∧
    lookupKey (runOps Validator.New ops).Errors "page" = some "first message" := by
  intro ops
  constructor
  · decide
  · exact ((validator_first_error_wins ops "page").2.1).trans (by decide)

theorem filters_valid_conditions (f : Filters)
    (h : (ValidateFilters Validator.New f).Valid = true) :
    0 < f.Page ∧ f.Page ≤ 10000000 ∧ 0 < f.PageSize ∧ f.PageSize ≤ 100 := by
  unfold ValidateFilters at h
  rw [runOps_valid] at h
  simp only [Validator.New, Validator.Valid, List.isEmpty_nil, Bool.true_and,
    validateFiltersOps, List.all_cons, List.all_nil, VOp.fails, Bool.not_not,
    Bool.and_true, Bool.and_eq_true, decide_eq_true_eq] at h
  exact ⟨h.1, h.2.1, h.2.2.1, h.2.2.2.1⟩

/-- C10: whenever `ValidateFilters` accepts a `Filters` value, `limit()` is
exactly `PageSize`, `offset()` is exactly `(Page - 1) * PageSize`, and that
product lies in `[0, 999999900]`, so the computation cannot overflow the
integer type. -/
theorem filters_offset_in_range (f : Filters)
    (h : (ValidateFilters Validator.New f).Valid = true) :
    f.limit = f.PageSize ∧
    f.offset = (f.Page - 1) * f.PageSize ∧
    0 ≤ f.offset ∧ f.offset ≤ 999999900 := by
  obtain ⟨h1, h2, h3, h4⟩ := filters_valid_conditions f h
  refine ⟨rfl, rfl, ?_, ?_⟩
  · exact mul_nonneg (by omega) (by omega)
  · have : (f.Page - 1) * f.PageSize ≤ 9999999 * 100 :=
      mul_le_mul (by omega) h4 (by omega) (by omega)
    simpa [Filters.offset] using this

theorem filters_offset_in_range_witness :
    (ValidateFilters Validator.New ⟨10000000, 100, "id", ["id"]⟩).Valid = true ∧
    Filters.offset ⟨10000000, 100, "id", ["id"]⟩ ≤ 999999900 := by
  refine ⟨by decide, ?_⟩
  exact (filters_offset_in_range ⟨10000000, 100, "id", ["id"]⟩ (by decide)).2.2.2

/-- C9: `calculateMetadata` returns the zero metadata when there are no
records, and otherwise fills every field, with `LastPage` the exact ceiling of
`totalRecords / pageSize`. -/
theorem calculateMetadata_spec (totalRecords page pageSize : Int) :
    (totalRecords = 0 → calculateMetadata totalRecords page pageSize = ⟨0, 0, 0, 0, 0⟩) ∧
    (totalRecords ≠ 0 →
      calculateMetadata totalRecords page pageSize =
        { CurrentPage := page
          PageSize := pageSize
          FirstPage := 1
          LastPage := ceilDivInt totalRecords pageSize
          TotalRecords := totalRecords }) ∧
    (0 < pageSize →
      ceilDivInt totalRecords pageSize = ⌈(totalRecords : ℚ) / (pageSize : ℚ)⌉) := by
  refine ⟨fun h => by simp [calculateMetadata, h], fun h => by simp [calculateMetadata, h], ?_⟩
  intro hp
  have hcast : ((pageSize.toNat : ℕ) : ℚ) = (pageSize : ℚ) := by
    rw [← Int.cast_natCast]
    exact congrArg _ (Int.toNat_of_nonneg hp.le)
  have hfl : ⌊((-totalRecords : ℤ) : ℚ) / ((pageSize.toNat : ℕ) : ℚ)⌋ =
      (-totalRecords) / ((pageSize.toNat : ℕ) : ℤ) :=
    Rat.floor_intCast_div_natCast (-totalRecords) pageSize.toNat
  have hnat : ((pageSize.toNat : ℕ) : ℤ) = pageSize := Int.toNat_of_nonneg hp.le
  rw [hcast, hnat] at hfl
  have hneg : (((-totalRecords : ℤ)) : ℚ) / (pageSize : ℚ) =
      -((totalRecords : ℚ) / (pageSize : ℚ)) := by
    push_cast
    ring
  rw [hneg] at hfl
  unfold ceilDivInt
  rw [← hfl, Int.floor_neg]
  ring

theorem calculateMetadata_spec_witness :
    calculateMetadata 0 3 20 = ⟨0, 0, 0, 0, 0⟩ ∧
    calculateMetadata 95 3 20 =
      { CurrentPage := 3, PageSize := 20, FirstPage := 1, LastPage := 5,
        TotalRecords := 95 } ∧
    (⌈((95 : ℤ) : ℚ) / ((20 : ℤ) : ℚ)⌉ : Int) = 5 := by
  refine ⟨(calculateMetadata_spec 0 3 20).1 rfl, ?_, ?_⟩
  · exact ((calculateMetadata_spec 95 3 20).2.1 (by decide)).trans (by decide)
  · have h := (calculateMetadata_spec 95 3 20).2.2 (by decide)
    rw [← h]
    decide

/-! ### Optimistic-concurrency update lemmas -/

theorem movieUpdate_match (db : MovieDB) (m row : MovieRow)
    (h : db m.id = some row) (hv : row.version = m.version) :
    movieUpdate db m =
      (UpdateResult.ok (row.version + 1),
        fun i => if i = m.id then
          some { row with
            title := m.title, year := m.year, runtime := m.runtime,
            genres := m.genres, version := row.version + 1 }
        else db i) := by
  simp [movieUpdate, h, hv]

theorem movieUpdate_version_mismatch (db : MovieDB) (m row : MovieRow)
    (h : db m.id = some row) (hv : row.version ≠ m.version) :
    movieUpdate db m = (UpdateResult.editConflict, db) := by
  simp [movieUpdate, h, hv]

theorem movieUpdate_no_row (db : MovieDB) (m : MovieRow)
    (h : db m.id = none) :
    movieUpdate db m = (UpdateResult.editConflict, db) := by
  simp [movieUpdate, h]

theorem userUpdate_match (db : UserDB) (u row : UserRow)
    (h : db u.id = some row) (hv : row.version = u.version) :
    userUpdate db u false =
      (UserUpdateResult.ok (row.version + 1),
        fun i => if i = u.id then
          some { row with
            name := u.name, email := u.email, passwordHash := u.passwordHash,
            activated := u.activated, version := row.version + 1 }
        else db i) := by
  simp [userUpdate, h, hv]

theorem userUpdate_version_mismatch (db : UserDB) (u row : UserRow)
    (ec : Bool) (h : db u.id = some row) (hv : row.version ≠ u.version) :
    userUpdate db u ec = (UserUpdateResult.editConflict, db) := by
  simp [userUpdate, h, hv]

theorem userUpdate_no_row (db : UserDB) (u : UserRow) (ec : Bool)
    (h : db u.id = none) :
    userUpdate db u ec = (UserUpdateResult.editConflict, db) := by
  simp [userUpdate, h]

/-- C1: an update conditioned on an expected version `v` succeeds exactly when
the stored record still has version `v`; on success the stored version becomes
`v + 1` (a strict increase, never a decrease or reset); a stale version leaves
the store unchanged and yields the edit-conflict error; hence a second update
with the same expected version after a successful first one yields
edit-conflict instead of silently overwriting. Stated for both the movies and
the users table. -/
theorem update_optimistic_concurrency (db : MovieDB) (m : MovieRow)
    (udb : UserDB) (u : UserRow) (ec : Bool) :
    ((∃ nv, (movieUpdate db m).1 = UpdateResult.ok nv) ↔
      (∃ row, db m.id = some row ∧ row.version = m.version)) ∧
    (∀ row, db m.id = some row → row.version = m.version →
      (movieUpdate db m).1 = UpdateResult.ok (m.version + 1) ∧
      (∃ row', (movieUpdate db m).2 m.id = some row' ∧
        row'.version = m.version + 1 ∧ row.version < row'.version)) ∧
    ((movieUpdate db m).1 = UpdateResult.editConflict →
      (movieUpdate db m).2 = db) ∧
    (∀ row, db m.id = some row → row.version = m.version →
      movieUpdate (movieUpdate db m).2 m =
        (UpdateResult.editConflict, (movieUpdate db m).2)) ∧
    ((∃ nv, (userUpdate udb u ec).1 = UserUpdateResult.ok nv) →
      (∃ row, udb u.id = some row ∧ row.version = u.version)) ∧
    (∀ row, udb u.id = some row → row.version = u.version →
      (userUpdate udb u false).1 = UserUpdateResult.ok (u.version + 1) ∧
      (∃ row', (userUpdate udb u false).2 u.id = some row' ∧
        row'.version = u.version + 1)) ∧
    ((userUpdate udb u ec).1 = UserUpdateResult.editConflict →
      (userUpdate udb u ec).2 = udb) ∧
    (∀ row, udb u.id = some row → row.version = u.version → ∀ ec2 : Bool,
      userUpdate (userUpdate udb u false).2 u ec2 =
        (UserUpdateResult.editConflict, (userUpdate udb u false).2)) := by
  refine ⟨⟨?_, ?_⟩, ?_, ?_, ?_, ?_, ?_, ?_, ?_⟩
  · rintro ⟨nv, hok⟩
    cases hrow : db m.id with
    | none => rw [movieUpdate_no_row db m hrow] at hok; cases hok
    | some row =>
      by_cases hv : row.version = m.version
      · exact ⟨row, rfl, hv⟩
      · rw [movieUpdate_version_mismatch db m row hrow hv] at hok; cases hok
  · rintro ⟨row, hrow, hv⟩
    refine ⟨row.version + 1, ?_⟩
    rw [movieUpdate_match db m row hrow hv]
  · intro row hrow hv
    rw [movieUpdate_match db m row hrow hv]
    constructor
    · rw [hv]
    · refine ⟨{ row with
          title := m.title, year := m.year, runtime := m.runtime,
          genres := m.genres, version := row.version + 1 }, ?_, ?_, ?_⟩
      · simp
      · simp [hv]
      · simp
  · intro hconf
    cases hrow : db m.id with
    | none => rw [movieUpdate_no_row db m hrow]
    | some row =>
      by_cases hv : row.version = m.version
      · rw [movieUpdate_match db m row hrow hv] at hconf; simp at hconf
      · rw [movieUpdate_version_mismatch db m row hrow hv]
  · intro row hrow hv
    rw [movieUpdate_match db m row hrow hv]
    apply movieUpdate_version_mismatch _ _
      { row with
        title := m.title, year := m.year, runtime := m.runtime,
        genres := m.genres, version := row.version + 1 }
    · simp
    · simp
      omega
  · rintro ⟨nv, hok⟩
    cases hrow : udb u.id with
    | none => rw [userUpdate_no_row udb u ec hrow] at hok; cases hok
    | some row =>
      by_cases hv : row.version = u.version
      · exact ⟨row, rfl, hv⟩
      · rw [userUpdate_version_mismatch udb u row ec hrow hv] at hok; cases hok
  · intro row hrow hv
    rw [userUpdate_match udb u row hrow hv]
    constructor
    · rw [hv]
    · refine ⟨{ row with
          name := u.name, email := u.email, passwordHash := u.passwordHash,
          activated := u.activated, version := row.version + 1 }, ?_, ?_⟩
      · simp
      · simp [hv]
  · intro hconf
    cases hrow : udb u.id with
    | none => rw [userUpdate_no_row udb u ec hrow]
    | some row =>
      by_cases hv : row.version = u.version
      · cases ec with
        | true => simp [userUpdate, hrow, hv] at hconf
        | false =>
          rw [userUpdate_match udb u row hrow hv] at hconf; simp at hconf
      · rw [userUpdate_version_mismatch udb u row ec hrow hv]
  · intro row hrow hv ec2
    rw [userUpdate_match udb u row hrow hv]
    apply userUpdate_version_mismatch _ _
      { row with
        name := u.name, email := u.email, passwordHash := u.passwordHash,
        activated := u.activated, version := row.version + 1 }
    · simp
    · simp
      omega

def exampleMovieDB : MovieDB :=
  fun i => if i = 1 then
    some { id := 1, createdAt := 0, title := "Casablanca", year := 1942,
           runtime := 102, genres := ["drama"], version := 7 }
  else none

def exampleStoredMovie : MovieRow :=
  { id := 1, createdAt := 0, title := "Casablanca", year := 1942,
    runtime := 102, genres := ["drama"], version := 7 }

def exampleMovieUpdate : MovieRow :=
  { id := 1, createdAt := 0, title := "Casablanca", year := 1943,
    runtime := 102, genres := ["drama"], version := 7 }

def exampleUserDB : UserDB := fun _ => none

def exampleUser : UserRow :=
  { id := 1, createdAt := 0, name := "Ann", email := "ann@x.com",
    passwordHash := [1], activated := false, version := 1 }

theorem update_optimistic_concurrency_witness :
    (movieUpdate exampleMovieDB exampleMovieUpdate).1 = UpdateResult.ok 8 ∧
    movieUpdate (movieUpdate exampleMovieDB exampleMovieUpdate).2 exampleMovieUpdate =
      (UpdateResult.editConflict, (movieUpdate exampleMovieDB exampleMovieUpdate).2) := by
  have h := update_optimistic_concurrency exampleMovieDB exampleMovieUpdate
    exampleUserDB exampleUser false
  refine ⟨?_, ?_⟩
  · exact (h.2.1 exampleStoredMovie rfl rfl).1
  · exact h.2.2.2.1 exampleStoredMovie rfl rfl

/-! ### Token generation lemmas -/

theorem bytesToBits_length (bs : List Nat) :
    (bytesToBits bs).length = 8 * bs.length := by
  induction bs with
  | nil => rfl
  | cons b rest ih =>
    simp only [bytesToBits, List.map_cons, List.flatten_cons] at ih ⊢
    rw [List.length_append, ih]
    simp [byteToBits]
    ring

theorem chunk5_length : ∀ l : List Bool, (chunk5 l).length = (l.length + 4) / 5
  | [] => rfl
  | [_] => by simp [chunk5]
  | [_, _] => by simp [chunk5]
  | [_, _, _] => by simp [chunk5]
  | [_, _, _, _] => by simp [chunk5]
  | _ :: _ :: _ :: _ :: _ :: rest => by
    have ih := chunk5_length rest
    simp only [chunk5, List.length_cons, ih]
    omega

theorem base32EncodeNoPad_length (bs : List Nat) (h : bs.length = 16) :
    (base32EncodeNoPad bs).length = 26 := by
  unfold base32EncodeNoPad
  have hb : (bytesToBits bs).length = 128 := by rw [bytesToBits_length, h]
  have hc := chunk5_length (bytesToBits bs)
  rw [hb] at hc
  simp only [String.length_mk, List.length_map]
  rw [hc]

/-- C3: when the 16 random bytes are produced, `generateToken` yields a token
whose plaintext is their unpadded base-32 encoding — hence exactly 26
characters — whose hash is the SHA-256 digest of that plaintext, and whose
expiry is now + ttl; when random-byte generation fails, the error is
propagated and no token is produced. -/
theorem generateToken_spec (sha256 : String → List Nat) (now userID ttl : Int)
    (scope : String) :
    (∀ bs : List Nat, bs.length = 16 →
      generateToken sha256 now userID ttl scope (Except.ok bs) =
        Except.ok
          { Plaintext := base32EncodeNoPad bs
            Hash := sha256 (base32EncodeNoPad bs)
            UserID := userID
            Expiry := now + ttl
            Scope := scope } ∧
      (base32EncodeNoPad bs).length = 26) ∧
    (∀ e : String,
      generateToken sha256 now userID ttl scope (Except.error e) =
        Except.error e) := by
  refine ⟨fun bs h => ⟨rfl, base32EncodeNoPad_length bs h⟩, fun e => rfl⟩

theorem generateToken_spec_witness :
    (List.range 16).length = 16 ∧
    (base32EncodeNoPad (List.range 16)).length = 26 ∧
    generateToken (fun s => [s.utf8ByteSize]) 0 7 259200 "activation"
      (Except.error "entropy source failed") =
      Except.error "entropy source failed" := by
  refine ⟨by decide, ?_, ?_⟩
  · exact ((generateToken_spec (fun s => [s.utf8ByteSize]) 0 7 259200
      "activation").1 (List.range 16) (by decide)).2
  · exact (generateToken_spec (fun s => [s.utf8ByteSize]) 0 7 259200
      "activation").2 "entropy source failed"

/-! ### Authentication middleware -/

theorem validateTokenPlaintext_valid (t : String) :
    (runOps Validator.New (validateTokenPlaintextOps t)).Valid =
      (decide (t ≠ "") && decide (t.utf8ByteSize = 26)) := by
  rw [runOps_valid]
  simp [validateTokenPlaintextOps, Validator.New, Validator.Valid, VOp.fails]

theorem goSplitSpace_bearer_ne_empty (hdr tok : String)
    (hsp : goSplitSpace hdr = ["Bearer", tok]) : hdr ≠ "" := by
  intro he
  subst he
  have hempty : goSplitSpace "" = [""] := rfl
  rw [hempty] at hsp
  injection hsp with h1 h2
  exact absurd h1 (by decide)

/-- C2: the authenticate middleware always adds `Vary: Authorization`; with no
`Authorization` header the request proceeds as the anonymous user; a header
that is not exactly `Bearer <token>` gets a 401; a token that is empty or not
26 bytes gets a 401; a well-formed token matching no stored token of scope
`authentication` with expiry after now gets a 401 through the single
`ErrRecordNotFound` path — the identical response whether the token was never
issued or has expired; a matching token makes the request proceed as the
owning user. -/
theorem authenticate_contract (sha256 : String → List Nat)
    (users : List UserRow) (tokens : List TokenRow) (now : Int) :
    (∀ hdr : String,
      (authenticate sha256 users tokens now hdr).varyAuthorizationAdded = true) ∧
    (authenticate sha256 users tokens now "").outcome =
      AuthOutcome.proceedAnonymous ∧
    (∀ hdr : String, hdr ≠ "" →
      (∀ tok : String, goSplitSpace hdr ≠ ["Bearer", tok]) →
      (authenticate sha256 users tokens now hdr).outcome =
        AuthOutcome.invalidCredentials ∧
      ((authenticate sha256 users tokens now hdr).outcome).status = some 401) ∧
    (∀ hdr tok : String, goSplitSpace hdr = ["Bearer", tok] →
      (tok = "" ∨ tok.utf8ByteSize ≠ 26) →
      (authenticate sha256 users tokens now hdr).outcome =
        AuthOutcome.invalidAuthenticationToken ∧
      ((authenticate sha256 users tokens now hdr).outcome).status = some 401) ∧
    (∀ hdr tok : String, goSplitSpace hdr = ["Bearer", tok] →
      tok ≠ "" → tok.utf8ByteSize = 26 →
      getForToken sha256 users tokens now ScopeAuthentication tok = none →
      (authenticate sha256 users tokens now hdr).outcome =
        AuthOutcome.invalidCredentials ∧
      ((authenticate sha256 users tokens now hdr).outcome).status = some 401) ∧
    (∀ (hdr tok : String) (user : UserRow),
      goSplitSpace hdr = ["Bearer", tok] →
      tok ≠ "" → tok.utf8ByteSize = 26 →
      getForToken sha256 users tokens now ScopeAuthentication tok = some user →
      (authenticate sha256 users tokens now hdr).outcome =
        AuthOutcome.proceedAs user) := by
  refine ⟨fun hdr => rfl, rfl, ?_, ?_, ?_, ?_⟩
  · intro hdr hne hnb
    unfold authenticate
    simp only [hne, if_false]
    cases hsp : goSplitSpace hdr with
    | nil => exact ⟨rfl, rfl⟩
    | cons p0 rest =>
      cases rest with
      | nil => exact ⟨rfl, rfl⟩
      | cons tok rest2 =>
        cases rest2 with
        | nil =>
          have hp0 : ¬(p0 = "Bearer") := by
            intro he
            exact hnb tok (by rw [hsp, he])
          simp [hp0, AuthOutcome.status]
        | cons a as => exact ⟨rfl, rfl⟩
  · intro hdr tok hsp hbad
    have hne := goSplitSpace_bearer_ne_empty hdr tok hsp
    unfold authenticate
    simp only [hne, if_false]
    rw [hsp]
    simp only [if_true]
    rw [validateTokenPlaintext_valid]
    rcases hbad with hbad | hbad
    · simp [hbad, AuthOutcome.status]
    · simp [hbad, AuthOutcome.status]
  · intro hdr tok hsp hne26 h26 hget
    have hne := goSplitSpace_bearer_ne_empty hdr tok hsp
    unfold authenticate
    simp only [hne, if_false]
    rw [hsp]
    simp only [if_true]
    rw [validateTokenPlaintext_valid]
    simp only [hne26, h26, decide_not, decide_eq_true_eq]
    simp [hne26, h26, hget, AuthOutcome.status]
  · intro hdr tok user hsp hne26 h26 hget
    have hne := goSplitSpace_bearer_ne_empty hdr tok hsp
    unfold authenticate
    simp only [hne, if_false]
    rw [hsp]
    simp only [if_true]
    rw [validateTokenPlaintext_valid]
    simp [hne26, h26, hget]

def exampleSha (s : String) : List Nat := [s.utf8ByteSize]

def exampleAuthUser : UserRow :=
  { id := 42, createdAt := 0, name := "Bea", email := "bea@x.com",
    passwordHash := [2], activated := true, version := 3 }

def exampleTokenStore : List TokenRow :=
  [{ hash := [26], userID := 42, expiry := 1000, scope := "authentication" }]

theorem authenticate_contract_witness :
    (authenticate exampleSha [exampleAuthUser] exampleTokenStore 500
        "Bearer ABCDEFGHIJKLMNOPQRSTUVWXYZ").outcome =
      AuthOutcome.proceedAs exampleAuthUser ∧
    (authenticate exampleSha [exampleAuthUser] exampleTokenStore 500 "").outcome =
      AuthOutcome.proceedAnonymous := by
  have h := authenticate_contract exampleSha [exampleAuthUser] exampleTokenStore 500
  refine ⟨?_, h.2.1⟩
  exact h.2.2.2.2.2 "Bearer ABCDEFGHIJKLMNOPQRSTUVWXYZ"
    "ABCDEFGHIJKLMNOPQRSTUVWXYZ" exampleAuthUser (by decide) (by decide)
    (by decide) (by decide)

/-! ### Partial movie update -/

/-- C6: the PATCH handler applies to the loaded record exactly the fields
present in the JSON body and leaves every absent field unchanged; a body
containing only `{"year":2020}` leaves title, runtime and genres at their
stored values and, when validation passes, succeeds with the version
incremented by exactly 1. (`hid`: the primary-key column of the fetched row
equals the key it is stored under.) -/
theorem updateMovieHandler_partial_update (db : MovieDB) (nowYear id : Int)
    (movie : MovieRow) (input : MovieInput)
    (hget : movieGet db id = some movie) (hid : movie.id = id) :
    ((input.Title = none → (applyMovieInput movie input).title = movie.title) ∧
     (input.Year = none → (applyMovieInput movie input).year = movie.year) ∧
     (input.Runtime = none → (applyMovieInput movie input).runtime = movie.runtime) ∧
     (input.Genres = none → (applyMovieInput movie input).genres = movie.genres) ∧
     (∀ t, input.Title = some t → (applyMovieInput movie input).title = t) ∧
     (∀ y, input.Year = some y → (applyMovieInput movie input).year = y) ∧
     (∀ rt, input.Runtime = some rt → (applyMovieInput movie input).runtime = rt) ∧
     (∀ g, input.Genres = some g → (applyMovieInput movie input).genres = g)) ∧
    ((ValidateMovie nowYear { movie with year := 2020 }).Valid = true →
      updateMovieHandler db nowYear id ⟨none, some 2020, none, none⟩ =
        (UpdateHandlerResult.okMovie
            { movie with year := 2020, version := movie.version + 1 },
          fun i => if i = id then
            some { movie with year := 2020, version := movie.version + 1 }
          else db i)) := by
  constructor
  · rcases input with ⟨it, iy, ir, ig⟩
    rcases it with _ | t <;> rcases iy with _ | y <;> rcases ir with _ | rt <;>
      rcases ig with _ | g <;> simp [applyMovieInput]
  · intro hv
    have hdb : db id = some movie := by
      unfold movieGet at hget
      by_cases hlt : id < 1
      · rw [if_pos hlt] at hget; cases hget
      · rwa [if_neg hlt] at hget
    unfold updateMovieHandler
    rw [hget]
    simp only []
    have happ : applyMovieInput movie ⟨none, some 2020, none, none⟩ =
        { movie with year := 2020 } := rfl
    rw [happ]
    unfold ValidateMovie at hv
    rw [ValidateMovie, hv]
    simp only [if_true]
    have hupd := movieUpdate_match db { movie with year := 2020 } movie
      (by rw [show ({ movie with year := 2020 } : MovieRow).id = movie.id from rfl,
        hid]; exact hdb) rfl
    rw [hupd]
    rw [hid]

theorem updateMovieHandler_partial_update_witness :
    (updateMovieHandler exampleMovieDB 2026 1
        ⟨none, some 2020, none, none⟩).1 =
      UpdateHandlerResult.okMovie
        { id := 1, createdAt := 0, title := "Casablanca", year := 2020,
          runtime := 102, genres := ["drama"], version := 8 } ∧
    (updateMovieHandler exampleMovieDB 2026 1
        ⟨none, some 2020, none, none⟩).2 1 =
      some { id := 1, createdAt := 0, title := "Casablanca", year := 2020,
             runtime := 102, genres := ["drama"], version := 8 } := by
  have h := (updateMovieHandler_partial_update exampleMovieDB 2026 1
    exampleStoredMovie ⟨none, some 2020, none, none⟩ (by decide) rfl).2 (by decide)
  constructor
  · rw [h]
    decide
  · rw [h]
    decide

/-! ### CORS middleware -/

theorem corsLoop_not_mem (origin : String) (pf : Bool) (resp : CorsResponse)
    (l : List String) : origin ∉ l → corsLoop origin pf resp l = resp := by
  induction l with
  | nil => intro _; rfl
  | cons t rest ih =>
    intro h
    have ht : ¬(origin = t) := fun he => h (he ▸ List.mem_cons_self t rest)
    simp only [corsLoop, ht, if_false]
    exact ih (fun hm => h (List.mem_cons_of_mem t hm))

theorem corsLoop_false_mem (origin : String) (l : List String) :
    ∀ resp : CorsResponse, origin ∈ l →
      corsLoop origin false resp l = { resp with allowOrigin := some origin } := by
  induction l with
  | nil => intro resp h; cases h
  | cons t rest ih =>
    intro resp h
    by_cases ht : origin = t
    · subst ht
      have hstep : corsLoop origin false resp (origin :: rest) =
          corsLoop origin false { resp with allowOrigin := some origin } rest := by
        simp [corsLoop]
      rw [hstep]
      by_cases hm : origin ∈ rest
      · rw [ih _ hm]
      · rw [corsLoop_not_mem _ _ _ _ hm]
    · rcases List.mem_cons.mp h with h' | h'
      · exact absurd h' ht
      · simp only [corsLoop, ht, if_false]
        exact ih _ h'

theorem corsLoop_true_mem (origin : String) (l : List String) :
    ∀ resp : CorsResponse, origin ∈ l →
      corsLoop origin true resp l =
        { resp with
          allowOrigin := some origin
          allowMethodsSet := true
          allowHeadersSet := true
          outcome := CorsOutcome.preflightOK } := by
  induction l with
  | nil => intro resp h; cases h
  | cons t rest ih =>
    intro resp h
    by_cases ht : origin = t
    · subst ht
      simp [corsLoop]
    · rcases List.mem_cons.mp h with h' | h'
      · exact absurd h' ht
      · simp only [corsLoop, ht, if_false]
        exact ih _ h'

/-- C7 counterexample: a preflight request (`OPTIONS` with a non-empty
`Access-Control-Request-Method`) whose `Origin` is not on the trusted list is
NOT answered with a 200 short-circuit — it falls through to the downstream
handlers with no CORS headers set — refuting the claim that every preflight
request is answered directly. -/
theorem enableCORS_untrusted_preflight_passes_downstream :
    (CorsRequest.method ⟨"OPTIONS", "https://attacker.example", "PUT"⟩ = "OPTIONS" ∧
     CorsRequest.accessControlRequestMethod
        ⟨"OPTIONS", "https://attacker.example", "PUT"⟩ ≠ "") ∧
    (enableCORS ⟨["https://trusted.example"]⟩
        ⟨"OPTIONS", "https://attacker.example", "PUT"⟩).outcome =
      CorsOutcome.passDownstream ∧
    (enableCORS ⟨["https://trusted.example"]⟩
        ⟨"OPTIONS", "https://attacker.example", "PUT"⟩).allowMethodsSet = false := by
  decide

/-- C7 (amended): `Access-Control-Allow-Origin` is set — and then always to
the request's `Origin` value — iff the `Origin` header is non-empty and
exactly equals a configured trusted origin; a preflight request is answered
directly with 200 and the allow-methods/headers set, without invoking
downstream handlers, iff additionally its `Origin` is non-empty and trusted;
every other request (including preflights from untrusted origins) passes to
the downstream handlers. -/
theorem enableCORS_characterization (cfg : CorsConfig) (r : CorsRequest) :
    ((enableCORS cfg r).allowOrigin = some r.origin ↔
      r.origin ≠ "" ∧ r.origin ∈ cfg.trustedOrigins) ∧
    ((enableCORS cfg r).allowOrigin = none ∨
      (enableCORS cfg r).allowOrigin = some r.origin) ∧
    ((enableCORS cfg r).outcome = CorsOutcome.preflightOK ↔
      (r.origin ≠ "" ∧ r.origin ∈ cfg.trustedOrigins ∧
        r.method = "OPTIONS" ∧ r.accessControlRequestMethod ≠ "")) ∧
    ((enableCORS cfg r).outcome = CorsOutcome.preflightOK →
      (enableCORS cfg r).allowMethodsSet = true ∧
      (enableCORS cfg r).allowHeadersSet = true) := by
  by_cases hguard : r.origin ≠ "" ∧ cfg.trustedOrigins.length ≠ 0
  · by_cases hmem : r.origin ∈ cfg.trustedOrigins
    · cases hpf : (decide (r.method = "OPTIONS") &&
        decide (r.accessControlRequestMethod ≠ "")) with
      | false =>
        have hcors : enableCORS cfg r =
            { allowOrigin := some r.origin, allowMethodsSet := false,
              allowHeadersSet := false, outcome := CorsOutcome.passDownstream } := by
          unfold enableCORS
          rw [if_pos hguard, hpf]
          exact corsLoop_false_mem _ _ _ hmem
        rw [hcors]
        refine ⟨by simp [hguard.1, hmem], by simp, ?_, by intro hc; cases hc⟩
        constructor
        · intro hc; cases hc
        · rintro ⟨-, -, hm, hacrm⟩
          have htrue : (decide (r.method = "OPTIONS") &&
              decide (r.accessControlRequestMethod ≠ "")) = true := by
            simp [hm, hacrm]
          rw [htrue] at hpf
          cases hpf
      | true =>
        have hcors : enableCORS cfg r =
            { allowOrigin := some r.origin, allowMethodsSet := true,
              allowHeadersSet := true, outcome := CorsOutcome.preflightOK } := by
          unfold enableCORS
          rw [if_pos hguard, hpf]
          exact corsLoop_true_mem _ _ _ hmem
        rw [hcors]
        rw [Bool.and_eq_true, decide_eq_true_eq, decide_eq_true_eq] at hpf
        refine ⟨by simp [hguard.1, hmem], by simp, ?_,
          by intro _; exact ⟨rfl, rfl⟩⟩
        simp only [true_iff]
        exact ⟨hguard.1, hmem, hpf.1, hpf.2⟩
    · have hcors : enableCORS cfg r =
          { allowOrigin := none, allowMethodsSet := false,
            allowHeadersSet := false, outcome := CorsOutcome.passDownstream } := by
        unfold enableCORS
        rw [if_pos hguard]
        exact corsLoop_not_mem _ _ _ _ hmem
      rw [hcors]
      refine ⟨?_, by simp, ?_, by intro hc; cases hc⟩
      · constructor
        · intro hc; cases hc
        · rintro ⟨-, hm⟩; exact absurd hm hmem
      · constructor
        · intro hc; cases hc
        · rintro ⟨-, hm, -⟩; exact absurd hm hmem
  · have hcors : enableCORS cfg r =
        { allowOrigin := none, allowMethodsSet := false,
          allowHeadersSet := false, outcome := CorsOutcome.passDownstream } := by
      unfold enableCORS
      rw [if_neg hguard]
    rw [hcors]
    rcases not_and_or.mp hguard with hor | hlen
    · rw [not_not] at hor
      refine ⟨?_, by simp, ?_, by intro hc; cases hc⟩
      · constructor
        · intro hc; cases hc
        · rintro ⟨hne, -⟩; exact absurd hor hne
      · constructor
        · intro hc; cases hc
        · rintro ⟨hne, -⟩; exact absurd hor hne
    · have hmem : r.origin ∉ cfg.trustedOrigins := by
        intro hm
        rw [not_not] at hlen
        rw [List.length_eq_zero] at hlen
        rw [hlen] at hm
        cases hm
      refine ⟨?_, by simp, ?_, by intro hc; cases hc⟩
      · constructor
        · intro hc; cases hc
        · rintro ⟨-, hm⟩; exact absurd hm hmem
      · constructor
        · intro hc; cases hc
        · rintro ⟨-, hm, -⟩; exact absurd hm hmem

theorem enableCORS_characterization_witness :
    (enableCORS ⟨["https://trusted.example"]⟩
        ⟨"OPTIONS", "https://trusted.example", "PUT"⟩).outcome =
      CorsOutcome.preflightOK ∧
    (enableCORS ⟨["https://trusted.example"]⟩
        ⟨"GET", "https://trusted.example", ""⟩).allowOrigin =
      some "https://trusted.example" := by
  constructor
  · exact (enableCORS_characterization ⟨["https://trusted.example"]⟩
      ⟨"OPTIONS", "https://trusted.example", "PUT"⟩).2.2.1.mpr
      ⟨by decide, by decide, rfl, by decide⟩
  · exact (enableCORS_characterization ⟨["https://trusted.example"]⟩
      ⟨"GET", "https://trusted.example", ""⟩).1.mpr ⟨by decide, by decide⟩

/-! ### Duplicate email classification -/

/-- C8: when the backing store reports a violation of the
`users_email_key` uniqueness constraint, `UserModel.Insert` returns the
distinct duplicate-email error (any other store failure stays a generic
fault), and `registerUserHandler` translates it into a 422 response carrying
a field-level error for the `email` field — never a 500. -/
theorem duplicate_email_becomes_422 (user : UserRow) (v : Validator)
    (hv : v.Valid = true) :
    userInsert (InsertExecResult.failure pqDuplicateEmailError) user =
      Except.error UserInsertError.duplicateEmail ∧
    (∀ msg : String, msg ≠ pqDuplicateEmailError →
      userInsert (InsertExecResult.failure msg) user =
        Except.error (UserInsertError.other msg)) ∧
    registerInsertOutcome v
        (userInsert (InsertExecResult.failure pqDuplicateEmailError) user) =
      RegisterOutcome.failedValidation
        [("email", "a user with this email address already exists")] ∧
    (registerInsertOutcome v
        (userInsert (InsertExecResult.failure pqDuplicateEmailError) user)).status
      = 422 ∧
    registerInsertOutcome v
        (userInsert (InsertExecResult.failure pqDuplicateEmailError) user) ≠
      RegisterOutcome.serverError := by
  have herrs : v.Errors = [] := by
    rw [Validator.Valid, List.isEmpty_iff] at hv
    exact hv
  have hins : userInsert (InsertExecResult.failure pqDuplicateEmailError) user =
      Except.error UserInsertError.duplicateEmail := by
    simp [userInsert]
  have hout : registerInsertOutcome v
      (userInsert (InsertExecResult.failure pqDuplicateEmailError) user) =
      RegisterOutcome.failedValidation
        [("email", "a user with this email address already exists")] := by
    rw [hins]
    simp [registerInsertOutcome, Validator.AddError, herrs, lookupKey]
  refine ⟨hins, ?_, hout, ?_, ?_⟩
  · intro msg hmsg
    simp [userInsert, hmsg]
  · rw [hout]; rfl
  · rw [hout]; intro hc; cases hc

theorem duplicate_email_becomes_422_witness :
    registerInsertOutcome Validator.New
        (userInsert (InsertExecResult.failure pqDuplicateEmailError)
          exampleUser) =
      RegisterOutcome.failedValidation
        [("email", "a user with this email address already exists")] ∧
    (registerInsertOutcome Validator.New
        (userInsert (InsertExecResult.failure pqDuplicateEmailError)
          exampleUser)).status = 422 := by
  have h := duplicate_email_becomes_422 exampleUser Validator.New (by decide)
  exact ⟨h.2.2.1, h.2.2.2.1⟩

end GreenLight
